import Mathlib

/-! Verification of `frame_extraction.py`.

A shallow embedding of the frame-extraction pipeline of
`Synthetic-Training-Data-UAV-Detector` (file `frame_extraction.py`) and proofs
of the specified sampling and output-naming contract.

The embedding models the observable behaviour of the code:
* a video source (`cv2.VideoCapture`) is a flag `opened` plus the finite
  ordered list of frames the capture would yield;
* a frame (raster buffer) is modelled by its width and height — the only
  attributes the contract speaks about;
* side effects (directory creation, frame reads, image writes) are recorded
  in an event trace, and the return value (or the Python exception that
  escapes) is an `Outcome`;
* Python's `%` on integers is floor-based (`Int.fmod`) and raises
  `ZeroDivisionError` on a zero divisor, which the embedding models with
  `Option`.
-/

namespace FrameExtraction

/-- A raster image, reduced to the attributes the contract mentions:
its width and height in pixels (channel layout is opaque and elided). -/
structure Image where
  width : Nat
  height : Nat
deriving DecidableEq

/-- Observable side effects of a run: directory creation
(`Path(...).mkdir(parents=True, exist_ok=True)`), a successful `cap.read()`
returning the frame with 0-based read index `idx`, a `cap.read()` returning
`ret = False` (end of sequence), and `cv2.imwrite` of a resized frame under
`path` carrying the saved counter value used to build the name. -/
inductive Event where
  | mkdirEvent (dir : String)
  | readFrame (idx : Nat)
  | readEnd
  | writeFile (savedIdx : Nat) (path : String) (img : Image)
deriving DecidableEq

/-- How a call to `extract_frames` ends: normal return of `saved_count`,
or a `ZeroDivisionError` escaping from `frame_count % sample_rate`. -/
inductive Outcome where
  | ok (savedCount : Nat)
  | zeroDivisionError
deriving DecidableEq

/-- How a call to `process_local_video` ends: the `FileNotFoundError` raised
when `os.path.exists(video_path)` is false, a propagated `ZeroDivisionError`,
or normal return of the frame count. -/
inductive PLVOutcome where
  | fileNotFoundError
  | zeroDivisionError
  | ok (numFrames : Nat)
deriving DecidableEq

/-- Whether a string starts with the POSIX path separator. -/
def startsWithSep (s : String) : Bool :=
  match s.data with
  | [] => false
  | c :: _ => c = '/'

/-- Whether a string ends with the POSIX path separator. -/
def endsWithSep (s : String) : Bool :=
  match s.data.getLast? with
  | some c => c = '/'
  | none => false

/-- Model of `os.path.join(a, b)` for POSIX paths, for the shapes that occur here:
an absolute second component replaces the first, otherwise the components
are joined with a single separator. -/
def path_join (a b : String) : String :=
  if startsWithSep b then b
  else if a = "" then b
  else if endsWithSep a then a ++ b
  else a ++ "/" ++ b

/-- Python's format spec `{n:05d}` for a non-negative integer: the decimal
digits of `n`, left-padded with zeros to a minimum width of 5. -/
def pad5 (n : Nat) : String :=
  let s := toString n
  String.mk (List.replicate (5 - s.length) '0') ++ s

/-- The file name `f'frame_{saved_count:05d}.png'` used by `extract_frames`
for the frame saved with counter value `saved`. -/
def frame_filename (saved : Nat) : String :=
  "frame_" ++ pad5 saved ++ ".png"

/-- Model of `resize_image(image, target_size)`, that is `cv2.resize(image,
target_size, interpolation=cv2.INTER_AREA)`: the output raster has exactly the requested
`(width, height)`, whatever the input dimensions — the content is stretched,
with no cropping, letterboxing, or aspect-ratio preservation.  (The Python
docstring claims "while maintaining aspect ratio", but `cv2.resize` with an
explicit `dsize` does not preserve aspect ratio.) -/
def resize_image (image : Image) (target_size : Nat × Nat) : Image :=
  ⟨target_size.1, target_size.2⟩

/-- Model of `cv2.VideoCapture(video_path)`: whether the capture opened
(`cap.isOpened()`), and the frames that successive `cap.read()` calls
would yield before `ret` turns `False`. -/
structure VideoCapture where
  opened : Bool
  frames : List Image
deriving DecidableEq

/-- The `while cap.isOpened():` read loop of `extract_frames`, over the list
of frames still unread, with the current `frame_count` and `saved_count`.
Each iteration reads a frame (or breaks on end of sequence), tests
`frame_count % sample_rate == 0`, and on acceptance resizes the frame and
writes it as `frame_{saved_count:05d}.png` in `output_dir`, incrementing
`saved_count`; `frame_count` increments every iteration.

Python's `%` on integers is floor-based modulo, `Int.fmod` (its result takes
the sign of the divisor), and evaluating `frame_count % sample_rate` raises
`ZeroDivisionError` when `sample_rate` is zero — before the comparison with
0 and after the frame was already read. -/
def extractLoop (output_dir : String) (sample_rate : Int) (target_size : Nat × Nat) :
    List Image → Nat → Nat → List Event × Outcome
  | [], _, saved_count => ([Event.readEnd], Outcome.ok saved_count)
  | frame :: rest, frame_count, saved_count =>
    if sample_rate = 0 then
      ([Event.readFrame frame_count], Outcome.zeroDivisionError)
    else
      if Int.fmod (frame_count : Int) sample_rate = 0 then
        let resized := resize_image frame target_size
        let path := path_join output_dir (frame_filename saved_count)
        let r := extractLoop output_dir sample_rate target_size rest (frame_count + 1) (saved_count + 1)
        (Event.readFrame frame_count :: Event.writeFile saved_count path resized :: r.1, r.2)
      else
        let r := extractLoop output_dir sample_rate target_size rest (frame_count + 1) saved_count
        (Event.readFrame frame_count :: r.1, r.2)

/-- Model of `extract_frames(video_path, output_dir, sample_rate, target_size)`
(Python defaults: `sample_rate=30`, `target_size=(212, 212)`): open the
capture, create `output_dir`, run the read loop if the capture opened
(an unopened capture skips the loop and returns 0), and return
`saved_count`. -/
def extract_frames (cap : VideoCapture) (output_dir : String) (sample_rate : Int)
    (target_size : Nat × Nat) : List Event × Outcome :=
  if cap.opened then
    let r := extractLoop output_dir sample_rate target_size cap.frames 0 0
    (Event.mkdirEvent output_dir :: r.1, r.2)
  else
    ([Event.mkdirEvent output_dir], Outcome.ok 0)

/-- Model of `process_local_video(video_path, output_dir, sample_rate, target_size)`
(Python defaults: `sample_rate=30`, `target_size=(212, 212)`):
`file_exists` is the value of `os.path.exists(video_path)`, and `cap` the
capture that `cv2.VideoCapture(video_path)` would produce.  A missing file
raises `FileNotFoundError` before anything else; otherwise the frames
directory `output_dir/frames` is created and `extract_frames` runs on it,
its result (or escaping exception) returned. -/
def process_local_video (file_exists : Bool) (cap : VideoCapture) (output_dir : String)
    (sample_rate : Int) (target_size : Nat × Nat) : List Event × PLVOutcome :=
  if file_exists then
    let frames_dir := path_join output_dir "frames"
    let r := extract_frames cap frames_dir sample_rate target_size
    (Event.mkdirEvent frames_dir :: r.1,
      match r.2 with
      | Outcome.ok n => PLVOutcome.ok n
      | Outcome.zeroDivisionError => PLVOutcome.zeroDivisionError)
  else
    ([], PLVOutcome.fileNotFoundError)

/-! ## Observables extracted from a trace -/

/-- The write events of a trace: `(saved index, path, image)` triples,
in order. -/
def writes (t : List Event) : List (Nat × String × Image) :=
  t.filterMap fun e =>
    match e with
    | Event.writeFile s p img => some (s, p, img)
    | _ => none

/-- The saved indices of the write events of a trace, in order. -/
def writtenSavedIndices (t : List Event) : List Nat :=
  (writes t).map fun w => w.1

/-- The paths of the write events of a trace, in order. -/
def writtenPaths (t : List Event) : List String :=
  (writes t).map fun w => w.2.1

/-- The images of the write events of a trace, in order. -/
def writtenImages (t : List Event) : List Image :=
  (writes t).map fun w => w.2.2

/-- The read indices of the successful read events of a trace, in order. -/
def readIndices (t : List Event) : List Nat :=
  t.filterMap fun e =>
    match e with
    | Event.readFrame i => some i
    | _ => none

/-- The read indices of the *accepted* reads of a trace: reads immediately
followed by a write (the loop writes an accepted frame before reading the
next one, so acceptance is adjacency of the write to its read). -/
def acceptedReads : List Event → List Nat
  | [] => []
  | Event.mkdirEvent _ :: rest => acceptedReads rest
  | Event.readEnd :: rest => acceptedReads rest
  | Event.writeFile _ _ _ :: rest => acceptedReads rest
  | [Event.readFrame _] => []
  | Event.readFrame i :: Event.writeFile _ _ _ :: rest => i :: acceptedReads rest
  | Event.readFrame _ :: Event.mkdirEvent d :: rest => acceptedReads (Event.mkdirEvent d :: rest)
  | Event.readFrame _ :: Event.readEnd :: rest => acceptedReads (Event.readEnd :: rest)
  | Event.readFrame _ :: Event.readFrame j :: rest => acceptedReads (Event.readFrame j :: rest)

/-! ## Spec-side description of a run

`specTrace` restates the sampling contract in closed form: reading from
read index `i` on, every frame is read in order, a frame is accepted iff its
read index `j` satisfies `j % r = 0`, and the accepted frame at read index
`j` is saved with identifier `j / r` (the number of accepted indices before
`j`), resized to the target size.  The theorems below prove that the code's
trace equals this description whenever `sample_rate = r ≥ 1`. -/

/-- The expected event trace of the read loop for stride `r`, starting at
read index `i`, as dictated by the specification. -/
def specTrace (output_dir : String) (r : Nat) (target_size : Nat × Nat) :
    List Image → Nat → List Event
  | [], _ => [Event.readEnd]
  | f :: rest, i =>
    (if i % r = 0 then
      [Event.readFrame i,
       Event.writeFile (i / r) (path_join output_dir (frame_filename (i / r)))
         (resize_image f target_size)]
     else [Event.readFrame i]) ++ specTrace output_dir r target_size rest (i + 1)

/-! ## Helper lemmas -/

/-- Ceiling division `(n + r - 1) / r` counts the multiples of `r` below `n`, phrased
incrementally: when `r ∣ fc`, the ceiling division `(fc + r - 1) / r`
equals `fc / r`. -/
theorem ceil_div_of_mod_eq_zero {r fc : Nat} (hr : 1 ≤ r) (h : fc % r = 0) :
    (fc + r - 1) / r = fc / r := by
  obtain ⟨k, hk⟩ := Nat.dvd_of_mod_eq_zero h
  subst hk
  have h1 : r * k + r - 1 = r * k + (r - 1) := by omega
  rw [h1, Nat.mul_add_div (by omega), Nat.div_eq_of_lt (by omega), Nat.add_zero,
    Nat.mul_div_cancel_left _ (by omega)]

/-- When `r ∤ fc`, stepping `fc` by one does not change the ceiling
division `(fc + r - 1) / r`. -/
theorem ceil_div_of_mod_ne_zero {r fc : Nat} (hr : 1 ≤ r) (h : fc % r ≠ 0) :
    (fc + r) / r = (fc + r - 1) / r := by
  have h1 : fc + r = (fc + r - 1) + 1 := by omega
  rw [h1, Nat.succ_div]
  have h2 : fc + r - 1 + 1 = fc + r := by omega
  rw [h2]
  have h3 : ¬ r ∣ fc + r := by
    intro hd
    have h4 : (fc + r) % r = 0 := Nat.mod_eq_zero_of_dvd hd
    rw [Nat.add_mod_right] at h4
    exact h h4
  simp [h3]

/-- Computing `Int.fmod` on two natural numbers gives ordinary natural-number modulo. -/
theorem fmod_natCast (fc r : Nat) :
    Int.fmod (fc : Int) (r : Int) = ((fc % r : Nat) : Int) := by
  rw [Int.fmod_eq_emod _ (by positivity), Int.natCast_mod]

/-- Vanishing of the floor remainder: `Int.fmod a b = 0` iff `b ∣ a`, for `b ≠ 0`: the floor-based remainder
vanishes exactly on multiples of the divisor. -/
theorem fmod_eq_zero_iff_dvd (a b : Int) (hb : b ≠ 0) : Int.fmod a b = 0 ↔ b ∣ a := by
  constructor
  · intro h
    have h1 := Int.fmod_add_fdiv a b
    refine ⟨a.fdiv b, ?_⟩
    linarith
  · rintro ⟨k, rfl⟩
    have h1 := Int.fmod_add_fdiv (b * k) b
    rw [Int.mul_fdiv_cancel_left _ hb] at h1
    linarith

/-- Master characterization of the read loop for a positive stride `r`:
starting at read index `fc` with `saved_count` equal to the number of
multiples of `r` below `fc` (that is, `(fc + r - 1) / r`), the loop's trace
is exactly the specified trace and it returns `(fc + N + r - 1) / r` for a
remainder of `N` frames. -/
theorem extractLoop_eq_specTrace (dir : String) (ts : Nat × Nat) (r : Nat) (hr : 1 ≤ r) :
    ∀ (frames : List Image) (fc : Nat),
    extractLoop dir (r : Int) ts frames fc ((fc + r - 1) / r) =
      (specTrace dir r ts frames fc, Outcome.ok ((fc + frames.length + r - 1) / r)) := by
  intro frames
  induction frames with
  | nil => intro fc; simp [extractLoop, specTrace]
  | cons f rest ih =>
    intro fc
    have hr0 : (r : Int) ≠ 0 := by
      exact_mod_cast (by omega : r ≠ 0)
    by_cases h : fc % r = 0
    · have hfm0 : Int.fmod (fc : Int) (r : Int) = 0 := by
        rw [fmod_natCast fc r, h, Nat.cast_zero]
      have hsaved : (fc + r - 1) / r = fc / r := ceil_div_of_mod_eq_zero hr h
      have hnext : ((fc + 1) + r - 1) / r = fc / r + 1 := by
        have h1 : (fc + 1) + r - 1 = fc + r := by omega
        rw [h1, Nat.add_div_right _ (by omega)]
      have hih := ih (fc + 1)
      rw [hnext] at hih
      simp only [extractLoop, if_neg hr0, hfm0, if_pos rfl, if_true, specTrace, if_pos h,
        hsaved, hih, List.length_cons]
      rw [Prod.mk.injEq]
      refine ⟨rfl, ?_⟩
      congr 2
      omega
    · have hm : ((fc % r : Nat) : Int) ≠ 0 := by
        exact_mod_cast h
      have hfm1 : Int.fmod (fc : Int) (r : Int) = ((fc % r : Nat) : Int) :=
        fmod_natCast fc r
      have hsaved : ((fc + 1) + r - 1) / r = (fc + r - 1) / r := by
        have h1 : (fc + 1) + r - 1 = fc + r := by omega
        rw [h1]; exact ceil_div_of_mod_ne_zero hr h
      have hih := ih (fc + 1)
      rw [hsaved] at hih
      simp only [extractLoop, if_neg hr0, hfm1, specTrace, List.length_cons]
      rw [if_neg hm, if_neg h, hih, Prod.mk.injEq]
      refine ⟨by simp, ?_⟩
      have harith : fc + 1 + rest.length + r - 1 = fc + (rest.length + 1) + r - 1 := by omega
      rw [harith]

/-- Running `extract_frames` on an opened capture, for a positive stride `r`:
the trace is the directory creation followed by the specified trace, and
the returned count is `(N + r - 1) / r` — the ceiling of `N / r`. -/
theorem extract_frames_eq_specTrace (cap : VideoCapture) (dir : String) (ts : Nat × Nat)
    (r : Nat) (hr : 1 ≤ r) (hcap : cap.opened = true) :
    extract_frames cap dir (r : Int) ts =
      (Event.mkdirEvent dir :: specTrace dir r ts cap.frames 0,
       Outcome.ok ((cap.frames.length + r - 1) / r)) := by
  have h0 : (0 + r - 1) / r = 0 := by
    rw [Nat.zero_add]
    exact Nat.div_eq_of_lt (by omega)
  have hmain := extractLoop_eq_specTrace dir ts r hr cap.frames 0
  rw [h0] at hmain
  rw [extract_frames, if_pos hcap, hmain]
  simp

/-- The read indices of the specified trace starting at index `i` are
`i, i+1, ...` in order, one per source frame. -/
theorem readIndices_specTrace (dir : String) (r : Nat) (ts : Nat × Nat) :
    ∀ (frames : List Image) (i : Nat),
    readIndices (specTrace dir r ts frames i) = List.range' i frames.length := by
  intro frames
  induction frames with
  | nil => intro i; simp [specTrace, readIndices]
  | cons f rest ih =>
    intro i
    by_cases h : i % r = 0 <;>
      simp [specTrace, h, readIndices, List.filterMap_append, List.range'_succ, ih i.succ] <;>
      simpa [readIndices] using ih (i + 1)

/-- The write events of the specified trace starting at index `i`: one per
accepted source position `j` (those with `j % r = 0`), carrying saved index
`j / r`, the derived file path, and the resized frame. -/
theorem writes_specTrace (dir : String) (r : Nat) (ts : Nat × Nat) :
    ∀ (frames : List Image) (i : Nat),
    writes (specTrace dir r ts frames i) =
      ((List.enumFrom i frames).filter (fun p => p.1 % r == 0)).map
        (fun p => (p.1 / r, path_join dir (frame_filename (p.1 / r)), resize_image p.2 ts)) := by
  intro frames
  induction frames with
  | nil => intro i; simp [specTrace, writes]
  | cons f rest ih =>
    intro i
    by_cases h : i % r = 0 <;>
      simp [specTrace, h, writes, List.filterMap_append, List.enumFrom_cons] <;>
      simpa [writes] using ih (i + 1)

/-- A stray read in front of a specified trace is never directly followed
by a write, so it contributes no accepted read. -/
theorem acceptedReads_readFrame_specTrace (dir : String) (r : Nat) (ts : Nat × Nat)
    (j : Nat) (frames : List Image) (i : Nat) :
    acceptedReads (Event.readFrame j :: specTrace dir r ts frames i) =
      acceptedReads (specTrace dir r ts frames i) := by
  cases frames with
  | nil => simp [specTrace, acceptedReads]
  | cons f rest =>
    by_cases h : i % r = 0 <;> simp [specTrace, h, acceptedReads]

/-- The accepted reads of the specified trace starting at index `i` are
exactly the positions `j` with `j % r = 0`, in order. -/
theorem acceptedReads_specTrace (dir : String) (r : Nat) (ts : Nat × Nat) :
    ∀ (frames : List Image) (i : Nat),
    acceptedReads (specTrace dir r ts frames i) =
      (List.range' i frames.length).filter (fun j => j % r == 0) := by
  intro frames
  induction frames with
  | nil => intro i; simp [specTrace, acceptedReads]
  | cons f rest ih =>
    intro i
    by_cases h : i % r = 0
    · simp [specTrace, h, acceptedReads, List.range'_succ, ih (i + 1)]
    · simp only [specTrace, if_neg h, List.singleton_append,
        acceptedReads_readFrame_specTrace, List.length_cons, List.range'_succ]
      rw [ih (i + 1), List.filter_cons]
      simp [h]

/-- Dividing the multiples of `r` below `N` by `r` enumerates
`0, 1, ..., (N + r - 1) / r - 1`: the accepted positions map one-to-one
onto an initial segment of the naturals. -/
theorem range_filter_mod_map_div (r : Nat) (hr : 1 ≤ r) :
    ∀ N, ((List.range N).filter (fun j => j % r == 0)).map (fun j => j / r) =
      List.range ((N + r - 1) / r) := by
  intro N
  induction N with
  | zero =>
    have h0 : (0 + r - 1) / r = 0 := Nat.div_eq_of_lt (by omega)
    rw [h0]
    simp
  | succ N ih =>
    rw [List.range_succ, List.filter_append, List.map_append, ih]
    by_cases h : N % r = 0
    · have h1 : (N + 1 + r - 1) / r = N / r + 1 := by
        have h2 : N + 1 + r - 1 = N + r := by omega
        rw [h2, Nat.add_div_right _ (by omega)]
      have h3 : (N + r - 1) / r = N / r := ceil_div_of_mod_eq_zero hr h
      rw [h1, h3, List.range_succ]
      simp [h]
    · have h1 : (N + 1 + r - 1) / r = (N + r - 1) / r := by
        have h2 : N + 1 + r - 1 = N + r := by omega
        rw [h2]; exact ceil_div_of_mod_ne_zero hr h
      rw [h1]
      simp [h]

/-- There are exactly `(N + r - 1) / r` multiples of `r` below `N`. -/
theorem range_filter_mod_length (r : Nat) (hr : 1 ≤ r) (N : Nat) :
    ((List.range N).filter (fun j => j % r == 0)).length = (N + r - 1) / r := by
  have h := congrArg List.length (range_filter_mod_map_div r hr N)
  simpa using h

/-- Filtering and mapping an enumeration through functions of the position
only is filtering and mapping the positions. -/
theorem enumFrom_filter_fst_map {α β : Type} (q : Nat → Bool) (g : Nat → β) :
    ∀ (l : List α) (i : Nat),
    ((List.enumFrom i l).filter (fun p => q p.1)).map (fun p => g p.1) =
      ((List.range' i l.length).filter q).map g := by
  intro l
  induction l with
  | nil => intro i; simp
  | cons a rest ih =>
    intro i
    rw [List.enumFrom_cons, List.length_cons, List.range'_succ, List.filter_cons,
      List.filter_cons]
    by_cases h : q i = true <;> simp [h, ih (i + 1)]

/-- For any nonzero `sample_rate`, the read loop never raises
`ZeroDivisionError`. -/
theorem extractLoop_ne_zeroDivisionError (dir : String) (sr : Int) (ts : Nat × Nat)
    (hsr : sr ≠ 0) :
    ∀ (frames : List Image) (fc saved : Nat),
    (extractLoop dir sr ts frames fc saved).2 ≠ Outcome.zeroDivisionError := by
  intro frames
  induction frames with
  | nil => intro fc saved; simp [extractLoop]
  | cons f rest ih =>
    intro fc saved
    rw [extractLoop, if_neg hsr]
    by_cases h : Int.fmod (fc : Int) sr = 0 <;> simp [h, ih]

/-- For a negative `sample_rate`, the read loop behaves exactly as it does
for the absolute value of the rate: `Int.fmod fc sr` (the value of Python's
`fc % sr`) is zero precisely when `|sr|` divides `fc`. -/
theorem extractLoop_neg_eq (dir : String) (sr : Int) (ts : Nat × Nat) (hsr : sr ≤ -1) :
    ∀ (frames : List Image) (fc saved : Nat),
    extractLoop dir sr ts frames fc saved =
      extractLoop dir (sr.natAbs : Int) ts frames fc saved := by
  intro frames
  induction frames with
  | nil => intro fc saved; simp [extractLoop]
  | cons f rest ih =>
    intro fc saved
    have hne : sr ≠ 0 := by omega
    have hane : (sr.natAbs : Int) ≠ 0 := by
      simp only [ne_eq, Nat.cast_eq_zero, Int.natAbs_eq_zero]
      exact hne
    have hiff : (Int.fmod (fc : Int) sr = 0) ↔ (Int.fmod (fc : Int) (sr.natAbs : Int) = 0) := by
      rw [fmod_eq_zero_iff_dvd _ _ hne, fmod_eq_zero_iff_dvd _ _ hane, Int.natAbs_dvd]
    rw [extractLoop, extractLoop, if_neg hne, if_neg hane]
    by_cases h : Int.fmod (fc : Int) sr = 0
    · rw [if_pos h, if_pos (hiff.mp h), ih]
    · rw [if_neg h, if_neg (fun hc => h (hiff.mpr hc)), ih]

/-- Every image written by the read loop is the resize of some source frame,
hence has exactly the target dimensions — for any `sample_rate`. -/
theorem extractLoop_write_dims (dir : String) (sr : Int) (ts : Nat × Nat) :
    ∀ (frames : List Image) (fc saved s : Nat) (p : String) (img : Image),
    Event.writeFile s p img ∈ (extractLoop dir sr ts frames fc saved).1 →
    img = ⟨ts.1, ts.2⟩ := by
  intro frames
  induction frames with
  | nil => intro fc saved s p img hmem; simp [extractLoop] at hmem
  | cons f rest ih =>
    intro fc saved s p img hmem
    rw [extractLoop] at hmem
    by_cases hsr : sr = 0
    · rw [if_pos hsr] at hmem
      simp at hmem
    · rw [if_neg hsr] at hmem
      by_cases h : Int.fmod (fc : Int) sr = 0
      · rw [if_pos h] at hmem
        simp only [List.mem_cons] at hmem
        rcases hmem with h1 | h1 | h1
        · exact absurd h1 (by simp)
        · simp only [Event.writeFile.injEq, resize_image] at h1
          exact h1.2.2
        · exact ih _ _ _ _ _ h1
      · rw [if_neg h] at hmem
        simp only [List.mem_cons] at hmem
        rcases hmem with h1 | h1
        · exact absurd h1 (by simp)
        · exact ih _ _ _ _ _ h1

/-! ## Small trace helpers -/

/-- A directory-creation event contributes no read index. -/
theorem readIndices_mkdir (d : String) (t : List Event) :
    readIndices (Event.mkdirEvent d :: t) = readIndices t := by
  simp [readIndices]

/-- A directory-creation event contributes no write. -/
theorem writes_mkdir (d : String) (t : List Event) :
    writes (Event.mkdirEvent d :: t) = writes t := by
  simp [writes]

/-- A directory-creation event contributes no accepted read. -/
theorem acceptedReads_mkdir (d : String) (t : List Event) :
    acceptedReads (Event.mkdirEvent d :: t) = acceptedReads t := by
  simp [acceptedReads]

/-- Padding with `{n:05d}` yields at least five characters. -/
theorem pad5_length_ge (k : Nat) : 5 ≤ (pad5 k).length := by
  simp only [pad5, String.length_append, String.length_mk, List.length_replicate]
  omega

/-! ## Run-level observable characterizations (positive stride) -/

/-- The returned count of a run with stride `r ≥ 1` on an opened capture is
`(N + r - 1) / r`. -/
theorem outcome_extract_frames (r : Nat) (hr : 1 ≤ r) (cap : VideoCapture)
    (hcap : cap.opened = true) (dir : String) (ts : Nat × Nat) :
    (extract_frames cap dir (r : Int) ts).2 =
      Outcome.ok ((cap.frames.length + r - 1) / r) := by
  rw [extract_frames_eq_specTrace cap dir ts r hr hcap]

/-- The reads of a run are sequential: indices `0, ..., N - 1` in order. -/
theorem readIndices_extract_frames (r : Nat) (hr : 1 ≤ r) (cap : VideoCapture)
    (hcap : cap.opened = true) (dir : String) (ts : Nat × Nat) :
    readIndices (extract_frames cap dir (r : Int) ts).1 =
      List.range cap.frames.length := by
  rw [extract_frames_eq_specTrace cap dir ts r hr hcap]
  show readIndices (Event.mkdirEvent dir :: specTrace dir r ts cap.frames 0) = _
  rw [readIndices_mkdir, readIndices_specTrace, List.range_eq_range']

/-- The accepted reads of a run are exactly the indices divisible by `r`. -/
theorem acceptedReads_extract_frames (r : Nat) (hr : 1 ≤ r) (cap : VideoCapture)
    (hcap : cap.opened = true) (dir : String) (ts : Nat × Nat) :
    acceptedReads (extract_frames cap dir (r : Int) ts).1 =
      (List.range cap.frames.length).filter (fun i => i % r == 0) := by
  rw [extract_frames_eq_specTrace cap dir ts r hr hcap]
  show acceptedReads (Event.mkdirEvent dir :: specTrace dir r ts cap.frames 0) = _
  rw [acceptedReads_mkdir, acceptedReads_specTrace, List.range_eq_range']

/-- The writes of a run, one per accepted position. -/
theorem writes_extract_frames (r : Nat) (hr : 1 ≤ r) (cap : VideoCapture)
    (hcap : cap.opened = true) (dir : String) (ts : Nat × Nat) :
    writes (extract_frames cap dir (r : Int) ts).1 =
      ((List.enumFrom 0 cap.frames).filter (fun p => p.1 % r == 0)).map
        (fun p => (p.1 / r, path_join dir (frame_filename (p.1 / r)),
          resize_image p.2 ts)) := by
  rw [extract_frames_eq_specTrace cap dir ts r hr hcap]
  show writes (Event.mkdirEvent dir :: specTrace dir r ts cap.frames 0) = _
  rw [writes_mkdir, writes_specTrace]

/-- The saved indices of a run are `0, 1, ..., count - 1` in order. -/
theorem writtenSavedIndices_extract_frames (r : Nat) (hr : 1 ≤ r) (cap : VideoCapture)
    (hcap : cap.opened = true) (dir : String) (ts : Nat × Nat) :
    writtenSavedIndices (extract_frames cap dir (r : Int) ts).1 =
      List.range ((cap.frames.length + r - 1) / r) := by
  rw [writtenSavedIndices, writes_extract_frames r hr cap hcap dir ts, List.map_map]
  have hb := enumFrom_filter_fst_map (fun j => j % r == 0) (fun j => j / r) cap.frames 0
  rw [show ((fun w : Nat × String × Image => w.1) ∘
      (fun p : Nat × Image => (p.1 / r, path_join dir (frame_filename (p.1 / r)),
        resize_image p.2 ts))) = fun p : Nat × Image => p.1 / r from rfl, hb,
    ← List.range_eq_range', range_filter_mod_map_div r hr]

/-- The write paths of a run are `frame_00000.png, frame_00001.png, ...`
joined onto the output directory, in saved-index order. -/
theorem writtenPaths_extract_frames (r : Nat) (hr : 1 ≤ r) (cap : VideoCapture)
    (hcap : cap.opened = true) (dir : String) (ts : Nat × Nat) :
    writtenPaths (extract_frames cap dir (r : Int) ts).1 =
      (List.range ((cap.frames.length + r - 1) / r)).map
        (fun k => path_join dir (frame_filename k)) := by
  rw [writtenPaths, writes_extract_frames r hr cap hcap dir ts, List.map_map]
  have hb := enumFrom_filter_fst_map (fun j => j % r == 0)
    (fun j => path_join dir (frame_filename (j / r))) cap.frames 0
  rw [show ((fun w : Nat × String × Image => w.2.1) ∘
      (fun p : Nat × Image => (p.1 / r, path_join dir (frame_filename (p.1 / r)),
        resize_image p.2 ts))) =
      fun p : Nat × Image => path_join dir (frame_filename (p.1 / r)) from rfl, hb,
    ← List.range_eq_range', ← range_filter_mod_map_div r hr, List.map_map]
  rfl

/-! ## Claims -/

/-- C1: for every `sampleRate = r ≥ 1` and a source of `N` frames,
`extract_frames` reads frames sequentially (read indices `0, ..., N-1` in
order), accepts exactly the reads at indices `i` with `i % r = 0`, and
returns `(N + r - 1) / r = ⌈N / r⌉` — which equals the number of accepted
indices. -/
theorem extract_frames_sampling_count (r : Nat) (hr : 1 ≤ r) (cap : VideoCapture)
    (hcap : cap.opened = true) (dir : String) (ts : Nat × Nat) :
    (extract_frames cap dir (r : Int) ts).2 =
      Outcome.ok ((cap.frames.length + r - 1) / r) ∧
    readIndices (extract_frames cap dir (r : Int) ts).1 = List.range cap.frames.length ∧
    acceptedReads (extract_frames cap dir (r : Int) ts).1 =
      (List.range cap.frames.length).filter (fun i => i % r == 0) ∧
    ((List.range cap.frames.length).filter (fun i => i % r == 0)).length =
      (cap.frames.length + r - 1) / r := by
  exact ⟨outcome_extract_frames r hr cap hcap dir ts,
    readIndices_extract_frames r hr cap hcap dir ts,
    acceptedReads_extract_frames r hr cap hcap dir ts,
    range_filter_mod_length r hr cap.frames.length⟩

/-- Witness for C1, covering both spec scenarios: `N = 10`, `r = 3` accepts
indices `{0, 3, 6, 9}` and returns 4; `N = 5`, `r = 30` accepts `{0}` and
returns 1. -/
theorem extract_frames_sampling_count_witness :
    (extract_frames ⟨true, List.replicate 10 ⟨640, 480⟩⟩ "out" ((3 : Nat) : Int)
      (212, 212)).2 = Outcome.ok 4 ∧
    acceptedReads (extract_frames ⟨true, List.replicate 10 ⟨640, 480⟩⟩ "out"
      ((3 : Nat) : Int) (212, 212)).1 = [0, 3, 6, 9] ∧
    (extract_frames ⟨true, List.replicate 5 ⟨640, 480⟩⟩ "out" ((30 : Nat) : Int)
      (212, 212)).2 = Outcome.ok 1 ∧
    acceptedReads (extract_frames ⟨true, List.replicate 5 ⟨640, 480⟩⟩ "out"
      ((30 : Nat) : Int) (212, 212)).1 = [0] := by
  have h10 := extract_frames_sampling_count 3 (by decide)
    ⟨true, List.replicate 10 ⟨640, 480⟩⟩ rfl "out" (212, 212)
  have h5 := extract_frames_sampling_count 30 (by decide)
    ⟨true, List.replicate 5 ⟨640, 480⟩⟩ rfl "out" (212, 212)
  refine ⟨?_, ?_, ?_, ?_⟩
  · rw [h10.1]; decide
  · rw [h10.2.2.1]; decide
  · rw [h5.1]; decide
  · rw [h5.2.2.1]; decide

/-- C2: for every `sampleRate = r ≥ 1`, the saved identifiers of a run are
exactly `0, 1, ..., count - 1` in order — no gaps, no repeats — and each
accepted frame is written at `output_dir/frame_{SavedIndex:05d}.png`, the
name being `frame_` followed by the zero-padded (minimum width 5, starting
at `00000`) decimal saved index. -/
theorem extract_frames_output_naming (r : Nat) (hr : 1 ≤ r) (cap : VideoCapture)
    (hcap : cap.opened = true) (dir : String) (ts : Nat × Nat) :
    writtenSavedIndices (extract_frames cap dir (r : Int) ts).1 =
      List.range ((cap.frames.length + r - 1) / r) ∧
    writtenPaths (extract_frames cap dir (r : Int) ts).1 =
      (List.range ((cap.frames.length + r - 1) / r)).map
        (fun k => path_join dir (frame_filename k)) ∧
    (∀ k, frame_filename k = "frame_" ++ pad5 k ++ ".png") ∧
    (∀ k, 5 ≤ (pad5 k).length) ∧
    pad5 0 = "00000" := by
  exact ⟨writtenSavedIndices_extract_frames r hr cap hcap dir ts,
    writtenPaths_extract_frames r hr cap hcap dir ts,
    fun k => rfl, pad5_length_ge, by decide⟩

/-- Witness for C2: `N = 10`, `r = 3` yields identifiers `[0, 1, 2, 3]` and
paths `frame_00000` through `frame_00003`. -/
theorem extract_frames_output_naming_witness :
    writtenSavedIndices (extract_frames ⟨true, List.replicate 10 ⟨640, 480⟩⟩ "out"
      ((3 : Nat) : Int) (212, 212)).1 = [0, 1, 2, 3] ∧
    writtenPaths (extract_frames ⟨true, List.replicate 10 ⟨640, 480⟩⟩ "out"
      ((3 : Nat) : Int) (212, 212)).1 =
      ["out/frame_00000.png", "out/frame_00001.png", "out/frame_00002.png",
       "out/frame_00003.png"] ∧
    5 ≤ (pad5 0).length := by
  have h := extract_frames_output_naming 3 (by decide)
    ⟨true, List.replicate 10 ⟨640, 480⟩⟩ rfl "out" (212, 212)
  refine ⟨?_, ?_, h.2.2.2.1 0⟩
  · rw [h.1]; decide
  · rw [h.2.1]; decide

/-- C3: resizing ignores the input dimensions entirely — `cv2.resize` with
an explicit target produces a raster of exactly `targetSize` for any input
(matching, smaller, or larger), stretching rather than cropping,
letterboxing, or preserving aspect ratio — and consequently every frame
written by any run of `extract_frames` has exactly the target
dimensions. -/
theorem resize_image_target_dims :
    (∀ (image : Image) (target_size : Nat × Nat),
      resize_image image target_size = ⟨target_size.1, target_size.2⟩) ∧
    (∀ (cap : VideoCapture) (dir : String) (sr : Int) (ts : Nat × Nat)
       (s : Nat) (p : String) (img : Image),
      Event.writeFile s p img ∈ (extract_frames cap dir sr ts).1 →
      img.width = ts.1 ∧ img.height = ts.2) := by
  refine ⟨fun image target_size => rfl, ?_⟩
  intro cap dir sr ts s p img hmem
  rw [extract_frames] at hmem
  by_cases hcap : cap.opened = true
  · rw [if_pos hcap] at hmem
    simp only [List.mem_cons] at hmem
    rcases hmem with h1 | h1
    · exact absurd h1 (by simp)
    · have h2 := extractLoop_write_dims dir sr ts cap.frames 0 0 s p img h1
      rw [h2]
      exact ⟨rfl, rfl⟩
  · rw [if_neg hcap] at hmem
    simp at hmem

/-- Witness for C3: a 1920×1080 input frame resized to `(224, 224)` comes
out exactly 224×224, and the single write of a run on that frame carries a
224×224 image. -/
theorem resize_image_target_dims_witness :
    resize_image ⟨1920, 1080⟩ (224, 224) = ⟨224, 224⟩ ∧
    Event.writeFile 0 (path_join "out" (frame_filename 0)) ⟨224, 224⟩ ∈
      (extract_frames ⟨true, [⟨1920, 1080⟩]⟩ "out" 1 (224, 224)).1 ∧
    (224, 224).1 = 224 ∧
    ((⟨224, 224⟩ : Image).width = (224, 224).1 ∧
     (⟨224, 224⟩ : Image).height = (224, 224).2) := by
  have hmem : Event.writeFile 0 (path_join "out" (frame_filename 0)) ⟨224, 224⟩ ∈
      (extract_frames ⟨true, [⟨1920, 1080⟩]⟩ "out" 1 (224, 224)).1 := by decide
  exact ⟨resize_image_target_dims.1 ⟨1920, 1080⟩ (224, 224), hmem, rfl,
    resize_image_target_dims.2 ⟨true, [⟨1920, 1080⟩]⟩ "out" 1 (224, 224) 0
      (path_join "out" (frame_filename 0)) ⟨224, 224⟩ hmem⟩

/-- C4 counterexample: with `sample_rate = 0` on a one-frame source, no
`ConfigurationError` is raised before any read — the run reads frame 0
first and then dies with `ZeroDivisionError` at the stride test
`frame_count % sample_rate`, so a read does occur before any failure. -/
theorem extract_frames_zero_rate_counterexample :
    extract_frames ⟨true, [⟨640, 480⟩]⟩ "out" 0 (212, 212) =
      ([Event.mkdirEvent "out", Event.readFrame 0], Outcome.zeroDivisionError) ∧
    Event.readFrame 0 ∈ (extract_frames ⟨true, [⟨640, 480⟩]⟩ "out" 0 (212, 212)).1 := by
  refine ⟨?_, by decide⟩
  rw [extract_frames, if_pos rfl, extractLoop, if_pos rfl]

/-- C4 amended: `extract_frames` performs no upfront validation of
`sample_rate = 0`.  On a non-empty source it reads the first frame and then
raises `ZeroDivisionError` at the stride test — after that read, not
before; on an empty source it returns 0 with no error at all. -/
theorem extract_frames_zero_rate :
    (∀ (dir : String) (ts : Nat × Nat) (f : Image) (rest : List Image),
      extract_frames ⟨true, f :: rest⟩ dir 0 ts =
        ([Event.mkdirEvent dir, Event.readFrame 0], Outcome.zeroDivisionError)) ∧
    (∀ (dir : String) (ts : Nat × Nat),
      extract_frames ⟨true, []⟩ dir 0 ts =
        ([Event.mkdirEvent dir, Event.readEnd], Outcome.ok 0)) := by
  constructor
  · intro dir ts f rest
    rw [extract_frames, if_pos rfl, extractLoop, if_pos rfl]
  · intro dir ts
    rw [extract_frames, if_pos rfl, extractLoop]

/-- C5 counterexample: a capture that fails to open yields the same
`Outcome.ok 0` as a successfully opened source with zero frames — the
failure is not surfaced as a distinguishable error. -/
theorem extract_frames_unopened_counterexample :
    (extract_frames ⟨false, [⟨640, 480⟩]⟩ "out" 30 (212, 212)).2 = Outcome.ok 0 ∧
    (extract_frames ⟨true, []⟩ "out" 30 (212, 212)).2 = Outcome.ok 0 := by
  decide

/-- C5 amended: an unopenable source is silently conflated with an empty
one — `extract_frames` still creates the output directory and returns a
count of 0 with no error; only a missing local *file path* is surfaced
distinctly, as the `FileNotFoundError` that `process_local_video` raises
before anything runs. -/
theorem extract_frames_unopened_silent :
    (∀ (frames : List Image) (dir : String) (sr : Int) (ts : Nat × Nat),
      extract_frames ⟨false, frames⟩ dir sr ts =
        ([Event.mkdirEvent dir], Outcome.ok 0)) ∧
    (∀ (cap : VideoCapture) (dir : String) (sr : Int) (ts : Nat × Nat),
      process_local_video false cap dir sr ts = ([], PLVOutcome.fileNotFoundError)) := by
  constructor
  · intro frames dir sr ts
    rw [extract_frames]
    simp
  · intro cap dir sr ts
    rw [process_local_video]
    simp

/-- C6: for `sampleRate = 1`, every frame of the source is emitted, in the
source's original order, and each write's saved index equals the frame's
original 0-based position (`List.enumFrom 0` pairs each frame with that
position). -/
theorem extract_frames_rate_one (cap : VideoCapture) (hcap : cap.opened = true)
    (dir : String) (ts : Nat × Nat) :
    (extract_frames cap dir ((1 : Nat) : Int) ts).2 = Outcome.ok cap.frames.length ∧
    writes (extract_frames cap dir ((1 : Nat) : Int) ts).1 =
      (List.enumFrom 0 cap.frames).map
        (fun p => (p.1, path_join dir (frame_filename p.1), resize_image p.2 ts)) ∧
    readIndices (extract_frames cap dir ((1 : Nat) : Int) ts).1 =
      List.range cap.frames.length ∧
    writtenSavedIndices (extract_frames cap dir ((1 : Nat) : Int) ts).1 =
      List.range cap.frames.length := by
  refine ⟨?_, ?_, ?_, ?_⟩
  · rw [outcome_extract_frames 1 (le_refl 1) cap hcap dir ts]
    simp
  · rw [writes_extract_frames 1 (le_refl 1) cap hcap dir ts]
    have hf : (List.enumFrom 0 cap.frames).filter (fun p => p.1 % 1 == 0) =
        List.enumFrom 0 cap.frames :=
      List.filter_eq_self.mpr (fun a _ => by simp [Nat.mod_one])
    rw [hf]
    simp only [Nat.div_one]
  · exact readIndices_extract_frames 1 (le_refl 1) cap hcap dir ts
  · rw [writtenSavedIndices_extract_frames 1 (le_refl 1) cap hcap dir ts]
    simp

/-- Witness for C6: three distinct frames at rate 1 are all emitted, in
order, with saved indices 0, 1, 2 equal to their original positions. -/
theorem extract_frames_rate_one_witness :
    (extract_frames ⟨true, [⟨10, 11⟩, ⟨20, 21⟩, ⟨30, 31⟩]⟩ "out" ((1 : Nat) : Int)
      (212, 212)).2 = Outcome.ok 3 ∧
    writes (extract_frames ⟨true, [⟨10, 11⟩, ⟨20, 21⟩, ⟨30, 31⟩]⟩ "out"
      ((1 : Nat) : Int) (212, 212)).1 =
      [(0, "out/frame_00000.png", ⟨212, 212⟩),
       (1, "out/frame_00001.png", ⟨212, 212⟩),
       (2, "out/frame_00002.png", ⟨212, 212⟩)] ∧
    writtenSavedIndices (extract_frames ⟨true, [⟨10, 11⟩, ⟨20, 21⟩, ⟨30, 31⟩]⟩ "out"
      ((1 : Nat) : Int) (212, 212)).1 = [0, 1, 2] := by
  have h := extract_frames_rate_one ⟨true, [⟨10, 11⟩, ⟨20, 21⟩, ⟨30, 31⟩]⟩ rfl
    "out" (212, 212)
  refine ⟨h.1, ?_, ?_⟩
  · rw [h.2.1]; decide
  · rw [h.2.2.2]; decide

/-- C7: a source with zero frames ends the run normally — the first read
signals end-of-sequence, the loop stops, and the count 0 is returned with
no error, for every `sampleRate ≥ 1`. -/
theorem extract_frames_empty_source (r : Int) (hr : 1 ≤ r) (dir : String)
    (ts : Nat × Nat) :
    extract_frames ⟨true, []⟩ dir r ts =
      ([Event.mkdirEvent dir, Event.readEnd], Outcome.ok 0) := by
  rw [extract_frames, if_pos rfl, extractLoop]

/-- Witness for C7 at the default rate 30. -/
theorem extract_frames_empty_source_witness :
    extract_frames ⟨true, []⟩ "out" 30 (212, 212) =
      ([Event.mkdirEvent "out", Event.readEnd], Outcome.ok 0) :=
  extract_frames_empty_source 30 (by decide) "out" (212, 212)

/-- C8: output frames are emitted with saved indices `0, 1, 2, ...` —
increasing by exactly 1 per acceptance, never skipping or repeating — and
the accepted reads they pair with occur in the source's temporal order
(each write immediately follows its read, so `acceptedReads` recovers the
pairing); both sequences are strictly increasing. -/
theorem extract_frames_emission_order (r : Nat) (hr : 1 ≤ r) (cap : VideoCapture)
    (hcap : cap.opened = true) (dir : String) (ts : Nat × Nat) :
    writtenSavedIndices (extract_frames cap dir (r : Int) ts).1 =
      List.range ((cap.frames.length + r - 1) / r) ∧
    acceptedReads (extract_frames cap dir (r : Int) ts).1 =
      (List.range cap.frames.length).filter (fun i => i % r == 0) ∧
    List.Pairwise (fun a b => a < b)
      (writtenSavedIndices (extract_frames cap dir (r : Int) ts).1) ∧
    List.Pairwise (fun a b => a < b)
      (acceptedReads (extract_frames cap dir (r : Int) ts).1) := by
  refine ⟨writtenSavedIndices_extract_frames r hr cap hcap dir ts,
    acceptedReads_extract_frames r hr cap hcap dir ts, ?_, ?_⟩
  · rw [writtenSavedIndices_extract_frames r hr cap hcap dir ts]
    exact List.pairwise_lt_range _
  · rw [acceptedReads_extract_frames r hr cap hcap dir ts]
    exact List.Pairwise.filter _ (List.pairwise_lt_range _)

/-- Witness for C8: `N = 10`, `r = 3`. -/
theorem extract_frames_emission_order_witness :
    writtenSavedIndices (extract_frames ⟨true, List.replicate 10 ⟨640, 480⟩⟩ "out"
      ((3 : Nat) : Int) (212, 212)).1 = [0, 1, 2, 3] ∧
    List.Pairwise (fun a b => a < b)
      (acceptedReads (extract_frames ⟨true, List.replicate 10 ⟨640, 480⟩⟩ "out"
        ((3 : Nat) : Int) (212, 212)).1) := by
  have h := extract_frames_emission_order 3 (by decide)
    ⟨true, List.replicate 10 ⟨640, 480⟩⟩ rfl "out" (212, 212)
  refine ⟨?_, h.2.2.2⟩
  rw [h.1]; decide

/-- C9: a negative `sampleRate ≤ -1` raises no error and behaves exactly
as its absolute value would — Python's `i % r` for `i ≥ 0` and negative `r`
is zero precisely when `|r|` divides `i` — so the whole observable run
(trace and outcome) coincides with the `|r|` run. -/
theorem extract_frames_negative_rate (sr : Int) (hsr : sr ≤ -1) (cap : VideoCapture)
    (dir : String) (ts : Nat × Nat) :
    extract_frames cap dir sr ts = extract_frames cap dir (sr.natAbs : Int) ts ∧
    (extract_frames cap dir sr ts).2 ≠ Outcome.zeroDivisionError := by
  have hne : sr ≠ 0 := by omega
  constructor
  · by_cases hcap : cap.opened = true
    · rw [extract_frames, extract_frames, if_pos hcap, if_pos hcap,
        extractLoop_neg_eq dir sr ts hsr]
    · rw [extract_frames, extract_frames, if_neg hcap, if_neg hcap]
  · by_cases hcap : cap.opened = true
    · rw [extract_frames, if_pos hcap]
      exact extractLoop_ne_zeroDivisionError dir sr ts hne cap.frames 0 0
    · rw [extract_frames, if_neg hcap]
      simp

/-- Witness for C9: rate `-3` on a 7-frame source equals rate 3 and does
not raise. -/
theorem extract_frames_negative_rate_witness :
    extract_frames ⟨true, List.replicate 7 ⟨640, 480⟩⟩ "out" (-3) (212, 212) =
      extract_frames ⟨true, List.replicate 7 ⟨640, 480⟩⟩ "out"
        (((-3 : Int).natAbs : Nat) : Int) (212, 212) ∧
    (extract_frames ⟨true, List.replicate 7 ⟨640, 480⟩⟩ "out" (-3) (212, 212)).2 ≠
      Outcome.zeroDivisionError :=
  extract_frames_negative_rate (-3) (by decide) ⟨true, List.replicate 7 ⟨640, 480⟩⟩
    "out" (212, 212)

/-- C10: when `os.path.exists(video_path)` is false, `process_local_video`
raises `FileNotFoundError` immediately: the event trace is empty — no
directory is created, no frame is read, nothing is written — so the
filesystem is untouched by the call. -/
theorem process_local_video_missing_file (cap : VideoCapture) (dir : String)
    (sr : Int) (ts : Nat × Nat) :
    process_local_video false cap dir sr ts = ([], PLVOutcome.fileNotFoundError) := by
  rw [process_local_video]
  simp

end FrameExtraction
